import Mathlib

/-!
Shallow embedding of `src/news_digest.py` (Power & Utilities News Digest).

The script fetches RSS entries, normalizes them into article records,
sorts them by timestamp (descending, stable) and caps the list, builds a
prompt, tries a queue of Gemini models with bounded per-model retries and
backoff, and falls back to a deterministic headlines-only digest.

External collaborators (feedparser, the Gemini SDK, textwrap.shorten,
wall-clock time) are modelled as explicit parameters; everything else is
translated from the source.
-/

namespace NewsDigest

/-- Python `str.strip()` on a character list: drop whitespace from both ends. -/
def stripChars (l : List Char) : List Char :=
  ((l.dropWhile Char.isWhitespace).reverse.dropWhile Char.isWhitespace).reverse

/-- Python `s.strip()`. -/
def pyStrip (s : String) : String := ⟨stripChars s.data⟩

/-- Python `s[:n]` (slice of the first `n` characters). -/
def pySlice (s : String) (n : Nat) : String := ⟨s.data.take n⟩

/-- Python `x or y` for an optional string `x` (missing attribute or falsy value
falls through to `y`). -/
def pyOr (x : Option String) (y : String) : String :=
  match x with
  | some s => if s = "" then y else s
  | none => y

/-- Python `sep.join(l)`. -/
def pyJoin (sep : String) : List String → String
  | [] => ""
  | [a] => a
  | a :: b :: rest => a ++ sep ++ pyJoin sep (b :: rest)

/-! Configuration constants of the script. -/

def RSS_FEEDS : List String :=
  [ "https://www.utilitydive.com/feeds/news/",
    "https://www.renewableenergyworld.com/feed/",
    "https://www.energy.gov/rss/news.xml",
    "https://www.powermag.com/feed/",
    "https://www.canarymedia.com/rss-feed",
    "https://renewablesnow.com/feed/",
    "https://www.tdworld.com/rss",
    "https://tanddworld.podbean.com/feed.xml",
    "http://electrical-engineering-portal.com/category/protection/feed",
    "https://iec61850.blogspot.com/feeds/posts/default?alt=rss",
    "https://www.inmr.com/feed/",
    "https://www.energy-storage.news/feed/",
    "https://www.pv-magazine.com/feed/",
    "https://utilityweek.co.uk/feed/",
    "https://www.entsoe.eu/feed/",
    "https://www.ofgem.gov.uk/rss.xml" ]

def MAX_PER_FEED : Nat := 5

def MAX_ARTICLES : Nat := 40

def GEMINI_MODELS : List String :=
  [ "models/gemini-2.5-pro-preview-03-25",
    "models/gemini-1.5-pro",
    "models/gemini-1.5-flash",
    "models/gemini-1.5-flash-8b" ]

/-! Data model: raw feed entries and normalized article records. -/

/-- A raw feed entry as exposed by the feed-parsing collaborator; every field is
optional (`none` = attribute missing or `None`). Timestamps are abstracted to
naturals. -/
structure RawEntry where
  title : Option String := none
  link : Option String := none
  summary : Option String := none
  description : Option String := none
  published : Option String := none
  updated : Option String := none
  published_parsed : Option Nat := none
  updated_parsed : Option Nat := none
deriving DecidableEq

/-- The dict appended to `all_items` in `fetch_articles`. -/
structure Article where
  title : String
  link : String
  summary : String
  published : String
  ts : Nat
  source : String
deriving DecidableEq

/-- The per-entry normalization body of the loop in `fetch_articles`
(lines 106-123 of the source). `now` stands for `datetime.now(timezone.utc)`. -/
def normalize (now : Nat) (url : String) (e : RawEntry) : Article :=
  let title := pyStrip (pyOr e.title "")
  let link := pyStrip (pyOr e.link "")
  let summary := pyStrip (pyOr e.summary (pyOr e.description ""))
  let published := pyOr e.published (pyOr e.updated "")
  let ts : Nat :=
    match e.published_parsed with
    | some t => t
    | none =>
      match e.updated_parsed with
      | some t => t
      | none => now
  { title := if title = "" then "(no title)" else title
    link := link
    summary := summary
    published := published
    ts := ts
    source := url }

/-- One iteration of the feed loop: `feedparser.parse(url)` is modelled by
`input url` (`none` = the parse raised, caught and logged; the batch
continues), and at most `MAX_PER_FEED` entries are kept. -/
def feedArticles (input : String → Option (List RawEntry)) (now : Nat)
    (url : String) : List Article :=
  match input url with
  | none => []
  | some entries => (entries.take MAX_PER_FEED).map (normalize now url)

/-- The pre-selection list `all_items` right before the final sort and cap in
`fetch_articles`. -/
def collect (input : String → Option (List RawEntry)) (now : Nat) : List Article :=
  RSS_FEEDS.flatMap (feedArticles input now)

/-- The comparator for `all_items.sort(key=lambda x: x["ts"], reverse=True)`:
a stable sort that puts `a` before `b` whenever `b.ts ≤ a.ts`. -/
def tsDesc (a b : Article) : Bool := decide (b.ts ≤ a.ts)

/-- `fetch_articles`: collect, sort descending by timestamp (stable) and take
the first `MAX_ARTICLES`. -/
def fetch_articles (input : String → Option (List RawEntry)) (now : Nat) :
    List Article :=
  ((collect input now).mergeSort tsDesc).take MAX_ARTICLES

/-! Prompt builder. -/

def PROMPT_HEADER : String :=
  "You are a utility-industry analyst. Summarize these articles into a crisp daily digest for a busy CCO in power & utilities focused on protection & control, IEC 61850, T&D grid, DER/storage, and regulation. Be factual, brief, and actionable. Use bullets and short sections (Generation, T&D & Grid Ops, Protection & Control, DER/Storage, Policy/Regulatory, M&A/Financing). For each bullet: include the headline (tightened), the publisher if obvious, and 1‚Äì2 key takeaways with concrete metrics/dates. End with 3 ‚ÄòWhat matters‚Äô bullets."

/-- One article block of the prompt; the per-article summary context is capped
at 600 characters here (line 140 of the source). -/
def articleLine (i : Nat) (it : Article) : String :=
  toString i ++ ". " ++ it.title ++ " ‚Äî " ++ it.link ++ "\nSummary: " ++
    pySlice it.summary 600

/-- `build_prompt(items)`. -/
def build_prompt (items : List Article) : String :=
  pyJoin "\n"
    (PROMPT_HEADER :: "\nArticles:\n" ::
      (items.enumFrom 1).map (fun p => articleLine p.1 p.2))

/-! Summarization backend model and the orchestrator `try_gemini_summarize`. -/

/-- A `generate_content` response: an optional `text` attribute and the
`candidates` list, each candidate being the list of its parts' text
(`getattr(p, "text", "")` substitutes `""` for a missing part text). -/
structure GeminiResponse where
  text : Option String := none
  candidates : List (List String) := []
deriving DecidableEq

/-- Outcome of a single `model.generate_content(prompt)` call:
a parsed response, a `ResourceExhausted` error, another `GoogleAPIError`,
or any other exception. -/
inductive GenOutcome where
  | ok (resp : GeminiResponse)
  | resourceExhausted
  | apiError
  | otherError
deriving DecidableEq

/-- The backend collaborator: whether `genai.GenerativeModel(name)` succeeds,
and the outcome of the call for a given model, prompt and attempt number. -/
structure Backend where
  construct : String → Bool
  generate : String → String → Nat → GenOutcome

/-- Observable actions of the orchestrator: a `generate_content` call for a
given model and attempt index, and a `time.sleep` of a given duration. -/
inductive Event where
  | call (model : String) (attempt : Nat)
  | sleep (secs : Nat)
deriving DecidableEq

/-- The backoff interval `2 + attempt * 2` slept after a quota error. -/
def backoff (attempt : Nat) : Nat := 2 + attempt * 2

/-- The candidates fallback of the response-text extraction (lines 154-158):
join the first candidate's part texts and accept them when non-blank. -/
def candidatesText (resp : GeminiResponse) : Option String :=
  match resp.candidates with
  | [] => none
  | parts :: _ =>
    let text := pyJoin "" parts
    if pyStrip text = "" then none else some (pyStrip text)

/-- Text extraction from a parsed response (lines 152-158): a truthy `text`
attribute is returned stripped; otherwise the first candidate's joined part
texts when they are non-blank; otherwise nothing (the code then raises
`RuntimeError("Empty response from Gemini")`). -/
def extractText (resp : GeminiResponse) : Option String :=
  match resp.text with
  | some t => if t = "" then candidatesText resp else some (pyStrip t)
  | none => candidatesText resp

/-- The inner `for attempt in range(3)` loop for one model, over the list of
remaining attempt indices. Returns the event trace and `some text` on the
success return, `none` when the model is abandoned: a quota error sleeps the
backoff and retries, any other `GoogleAPIError` breaks, an empty response
raises (caught by the per-model handler), any other exception is likewise
caught by the per-model handler. -/
def attemptLoop (b : Backend) (prompt model : String) :
    List Nat → List Event × Option String
  | [] => ([], none)
  | a :: rest =>
    match b.generate model prompt a with
    | .ok resp =>
      match extractText resp with
      | some s => ([.call model a], some s)
      | none => ([.call model a], none)
    | .resourceExhausted =>
      let r := attemptLoop b prompt model rest
      (.call model a :: .sleep (backoff a) :: r.1, r.2)
    | .apiError => ([.call model a], none)
    | .otherError => ([.call model a], none)

/-- The outer `for model_name in GEMINI_MODELS` loop: a failed model
constructor skips the model, an abandoned model advances to the next one, a
success returns immediately. `none` models the final
`raise RuntimeError("All Gemini attempts failed...")`. -/
def tryModels (b : Backend) (prompt : String) :
    List String → List Event × Option String
  | [] => ([], none)
  | m :: ms =>
    if b.construct m then
      match attemptLoop b prompt m (List.range 3) with
      | (es, some s) => (es, some s)
      | (es, none) =>
        let r := tryModels b prompt ms
        (es ++ r.1, r.2)
    else tryModels b prompt ms

/-- `try_gemini_summarize(prompt)` (requires `GEMINI_AVAILABLE`; the caller
checks it). First component: the trace of calls and sleeps; second:
`some text` for the single success return, `none` for the final raise. -/
def try_gemini_summarize (b : Backend) (prompt : String) :
    List Event × Option String :=
  tryModels b prompt GEMINI_MODELS

/-! Fallback formatter and main. -/

def WHAT_MATTERS : List String :=
  [ "What matters:",
    "‚Ä¢ Watch protection & control updates impacting relay settings/misops.",
    "‚Ä¢ Track interconnection/transmission constraints affecting project timelines.",
    "‚Ä¢ Monitor regulatory moves (NERC/ENTSO-E/Ofgem) that change compliance scope." ]

/-- `format_headlines_only(items)`; `shorten` is `textwrap.shorten(·, 220)`
(an external collaborator) and `nowStr` the formatted current time. -/
def format_headlines_only (shorten : String → String) (nowStr : String)
    (items : List Article) : String :=
  pyJoin "\n"
    (["Power & Utilities ‚Äî Headlines Digest (LLM unavailable)", nowStr, ""]
      ++ items.map (fun it => shorten ("- " ++ it.title ++ " (" ++ it.link ++ ")"))
      ++ [""] ++ WHAT_MATTERS)

/-- Module-level environment: the raw `GOOGLE_API_KEY` environment variable
and whether the Gemini SDK import/configure succeeded. -/
structure Env where
  rawKey : String
  sdkOk : Bool

/-- `GOOGLE_API_KEY = os.getenv("GOOGLE_API_KEY", "").strip()`. -/
def GOOGLE_API_KEY (env : Env) : String := pyStrip env.rawKey

/-- `GEMINI_AVAILABLE`: true when the key is non-empty and the SDK
import/configure raised no exception. -/
def GEMINI_AVAILABLE (env : Env) : Bool :=
  (!(GOOGLE_API_KEY env = "")) && env.sdkOk

/-- Observable result of one run of `main()`: the exit code, the digest text
(none on the no-articles path, which prints only a notice), the prompt when
one was built, and the backend event trace. -/
structure MainResult where
  exitCode : Nat
  digest : Option String
  prompt : Option String
  events : List Event

/-- `main()` without the `--html` wrapping (which only re-renders the same
digest text). -/
def main_run (env : Env) (input : String → Option (List RawEntry)) (now : Nat)
    (nowStr : String) (shorten : String → String) (b : Backend) : MainResult :=
  match fetch_articles input now with
  | [] => { exitCode := 0, digest := none, prompt := none, events := [] }
  | it :: its =>
    let items := it :: its
    let prompt := build_prompt items
    let res :=
      if GEMINI_AVAILABLE env then try_gemini_summarize b prompt else ([], none)
    let digest_text :=
      match res.2 with
      | some s =>
        if s = "" then format_headlines_only shorten nowStr items else s
      | none => format_headlines_only shorten nowStr items
    { exitCode := 0, digest := some digest_text, prompt := some prompt,
      events := res.1 }

/-! Auxiliary definitions used to state the verified properties. -/

/-- The models of the call events of a trace, in order. -/
def callModels (tr : List Event) : List String :=
  tr.filterMap (fun e => match e with | .call m _ => some m | .sleep _ => none)

/-- Attempt `a` of model `m` parses a response whose extracted text is `s`
(the success condition of the inner loop). -/
def attemptOk (b : Backend) (p m : String) (a : Nat) (s : String) : Prop :=
  ∃ resp, b.generate m p a = GenOutcome.ok resp ∧ extractText resp = some s

/-- Attempt `a` of model `m` does not succeed: if it parses a response at all,
the extracted text is empty. -/
def attemptFails (b : Backend) (p m : String) (a : Nat) : Prop :=
  ∀ resp, b.generate m p a = GenOutcome.ok resp → extractText resp = none

/-- The call sequence `cs` respects the queue `ms`: calls of one model are
contiguous and the model blocks appear in queue order (a model that has been
advanced past is never called again). -/
inductive OrderedCalls : List String → List String → Prop where
  | nil (ms : List String) : OrderedCalls ms []
  | stay (m : String) (ms cs : List String) :
      OrderedCalls (m :: ms) cs → OrderedCalls (m :: ms) (m :: cs)
  | skip (m : String) (ms cs : List String) :
      OrderedCalls ms cs → OrderedCalls (m :: ms) cs

/-- The constant tail of every fallback digest: the blank separator line
followed by the static guidance bullets. -/
def WHAT_MATTERS_TAIL : String := "\n" ++ pyJoin "\n" ("" :: WHAT_MATTERS)

/-! Concrete fixtures for witnesses and counterexamples. -/

def M0 : String := "models/gemini-2.5-pro-preview-03-25"

def M1 : String := "models/gemini-1.5-pro"

/-- A backend on which every call parses a response with text "ok". -/
def okB : Backend :=
  { construct := fun _ => true
    generate := fun _ _ _ => .ok { text := some "ok" } }

/-- A backend on which every call raises `ResourceExhausted`. -/
def quotaB : Backend :=
  { construct := fun _ => true
    generate := fun _ _ _ => .resourceExhausted }

/-- A backend on which every call raises a non-quota `GoogleAPIError`. -/
def failB : Backend :=
  { construct := fun _ => true
    generate := fun _ _ _ => .apiError }

/-- A backend whose first model parses an empty response on attempt 0 and
would have yielded text "good" on later attempts, while the second model
yields text "next" right away. -/
def emptyThenB : Backend :=
  { construct := fun _ => true
    generate := fun m _ a =>
      if m = M0 then
        if a = 0 then .ok { text := some "" } else .ok { text := some "good" }
      else if m = M1 then .ok { text := some "next" }
      else .apiError }

/-- A backend whose first model returns a response with a truthy but
whitespace-only `text` attribute. -/
def wsB : Backend :=
  { construct := fun _ => true
    generate := fun m _ _ =>
      if m = M0 then .ok { text := some " " } else .apiError }

/-- A normal feed entry. -/
def entryA : RawEntry :=
  { title := some "Alpha", link := some "http://a", summary := some "S",
    published_parsed := some 5 }

/-- A feed entry whose summary is 601 characters long. -/
def entryLong : RawEntry :=
  { summary := some (String.mk (List.replicate 601 'a')) }

/-- Feed input: the first feed returns one normal entry, every other feed is
empty. -/
def inputOne : String → Option (List RawEntry) :=
  fun u => if u = "https://www.utilitydive.com/feeds/news/" then some [entryA]
           else some []

/-- Feed input: the first feed returns the oversized-summary entry, every
other feed is empty. -/
def inputLong : String → Option (List RawEntry) :=
  fun u => if u = "https://www.utilitydive.com/feeds/news/" then some [entryLong]
           else some []

/-- Feed input: every feed is empty. -/
def inputNone : String → Option (List RawEntry) := fun _ => some []

/-- Environment without a credential. -/
def envNoKey : Env := { rawKey := "", sdkOk := true }

/-- Environment with a credential and a working SDK. -/
def envKey : Env := { rawKey := "k", sdkOk := true }

/-! Helper lemmas. -/

theorem dropWhile_idem {α : Type} (p : α → Bool) (l : List α) :
    (l.dropWhile p).dropWhile p = l.dropWhile p := by
  induction l with
  | nil => simp
  | cons a t ih =>
    by_cases hp : p a = true
    · simpa [List.dropWhile_cons, hp] using ih
    · simp [List.dropWhile_cons, hp]

theorem dropWhile_eq_drop {α : Type} (p : α → Bool) (l : List α) :
    ∃ k, l.dropWhile p = l.drop k := by
  induction l with
  | nil => exact ⟨0, rfl⟩
  | cons a t ih =>
    by_cases hp : p a = true
    · obtain ⟨k, hk⟩ := ih
      exact ⟨k + 1, by simp [List.dropWhile_cons, hp, hk]⟩
    · exact ⟨0, by simp [List.dropWhile_cons, hp]⟩

theorem dropWhile_take {α : Type} (p : α → Bool) (l : List α)
    (h : l.dropWhile p = l) (n : Nat) :
    (l.take n).dropWhile p = l.take n := by
  cases l with
  | nil => simp
  | cons a t =>
    have hp : p a = false := by
      by_contra hcon
      have hpa : p a = true := by simpa using hcon
      rw [List.dropWhile_cons, if_pos hpa] at h
      have hle := (List.dropWhile_sublist (l := t) p).length_le
      rw [h] at hle
      simp at hle
    cases n with
    | zero => simp
    | succ n => simp [List.dropWhile_cons, hp]

theorem stripChars_idem (l : List Char) : stripChars (stripChars l) = stripChars l := by
  have hl₁ : (l.dropWhile Char.isWhitespace).dropWhile Char.isWhitespace
      = l.dropWhile Char.isWhitespace := dropWhile_idem _ l
  obtain ⟨k, hk⟩ :=
    dropWhile_eq_drop Char.isWhitespace (l.dropWhile Char.isWhitespace).reverse
  have hmrev : ((l.dropWhile Char.isWhitespace).reverse.dropWhile
        Char.isWhitespace).reverse
      = (l.dropWhile Char.isWhitespace).take
          ((l.dropWhile Char.isWhitespace).reverse.length - k) := by
    rw [hk, List.reverse_drop, List.reverse_reverse]
  have hA : (((l.dropWhile Char.isWhitespace).reverse.dropWhile
        Char.isWhitespace).reverse).dropWhile Char.isWhitespace
      = ((l.dropWhile Char.isWhitespace).reverse.dropWhile
        Char.isWhitespace).reverse := by
    rw [hmrev]
    exact dropWhile_take _ _ hl₁ _
  have hB : ((l.dropWhile Char.isWhitespace).reverse.dropWhile
        Char.isWhitespace).dropWhile Char.isWhitespace
      = (l.dropWhile Char.isWhitespace).reverse.dropWhile Char.isWhitespace :=
    dropWhile_idem _ _
  show ((((stripChars l).dropWhile Char.isWhitespace).reverse.dropWhile
      Char.isWhitespace).reverse) = stripChars l
  unfold stripChars
  rw [hA, List.reverse_reverse, hB]

theorem pyStrip_idem (s : String) : pyStrip (pyStrip s) = pyStrip s := by
  show String.mk (stripChars (String.mk (stripChars s.data)).data) = _
  exact congrArg String.mk (stripChars_idem s.data)

theorem pyJoin_append (sep : String) (xs ys : List String)
    (hx : xs ≠ []) (hy : ys ≠ []) :
    pyJoin sep (xs ++ ys) = pyJoin sep xs ++ sep ++ pyJoin sep ys := by
  induction xs with
  | nil => exact absurd rfl hx
  | cons a t ih =>
    cases t with
    | nil =>
      cases ys with
      | nil => exact absurd rfl hy
      | cons b r => simp [pyJoin]
    | cons c t2 =>
      have h2 := ih (by simp)
      simp only [List.cons_append] at h2 ⊢
      rw [show pyJoin sep (a :: (c :: (t2 ++ ys)))
            = a ++ sep ++ pyJoin sep (c :: (t2 ++ ys)) from rfl]
      rw [h2]
      rw [show pyJoin sep (a :: c :: t2) = a ++ sep ++ pyJoin sep (c :: t2) from rfl]
      simp [String.append_assoc]

theorem candidatesText_strip {resp : GeminiResponse} {s : String}
    (h : candidatesText resp = some s) : pyStrip s = s := by
  unfold candidatesText at h
  cases hc : resp.candidates with
  | nil => rw [hc] at h; cases h
  | cons parts rest =>
    rw [hc] at h
    dsimp only at h
    by_cases h0 : pyStrip (pyJoin "" parts) = ""
    · rw [if_pos h0] at h; cases h
    · rw [if_neg h0] at h
      have hs : s = pyStrip (pyJoin "" parts) := (Option.some.injEq _ _).mp h.symm
      rw [hs]
      exact pyStrip_idem _

theorem extractText_strip {resp : GeminiResponse} {s : String}
    (h : extractText resp = some s) : pyStrip s = s := by
  unfold extractText at h
  cases ht : resp.text with
  | none => rw [ht] at h; exact candidatesText_strip h
  | some t =>
    rw [ht] at h
    dsimp only at h
    by_cases h0 : t = ""
    · rw [if_pos h0] at h; exact candidatesText_strip h
    · rw [if_neg h0] at h
      have hs : s = pyStrip t := (Option.some.injEq _ _).mp h.symm
      rw [hs]
      exact pyStrip_idem _

theorem attemptLoop_strip (b : Backend) (p m : String) :
    ∀ (as : List Nat) (s : String),
      (attemptLoop b p m as).2 = some s → pyStrip s = s := by
  intro as
  induction as with
  | nil => intro s h; simp [attemptLoop] at h
  | cons a rest ih =>
    intro s h
    cases hg : b.generate m p a with
    | ok resp =>
      cases he : extractText resp with
      | some s2 =>
        simp only [attemptLoop, hg, he, Option.some.injEq] at h
        rw [← h]
        exact extractText_strip he
      | none =>
        simp only [attemptLoop, hg, he] at h
        exact Option.noConfusion h
    | resourceExhausted =>
      simp only [attemptLoop, hg] at h
      exact ih s h
    | apiError =>
      simp only [attemptLoop, hg] at h
      exact Option.noConfusion h
    | otherError =>
      simp only [attemptLoop, hg] at h
      exact Option.noConfusion h

theorem tryModels_strip (b : Backend) (p : String) :
    ∀ (ms : List String) (s : String),
      (tryModels b p ms).2 = some s → pyStrip s = s := by
  intro ms
  induction ms with
  | nil => intro s h; simp [tryModels] at h
  | cons m rest ih =>
    intro s h
    by_cases hc : b.construct m = true
    · cases hal : attemptLoop b p m (List.range 3) with
      | mk es r =>
        cases r with
        | some s2 =>
          simp only [tryModels, hc, if_true, hal, Option.some.injEq] at h
          rw [← h]
          exact attemptLoop_strip b p m (List.range 3) s2 (by rw [hal])
        | none =>
          simp only [tryModels, hc, if_true, hal] at h
          exact ih s h
    · simp only [tryModels, hc, if_false] at h
      exact ih s h

theorem callModels_append (l1 l2 : List Event) :
    callModels (l1 ++ l2) = callModels l1 ++ callModels l2 :=
  List.filterMap_append _ _ _

/-- Every call event in a one-model attempt loop is a call of that model. -/
theorem attemptLoop_calls (b : Backend) (p m : String) :
    ∀ as : List Nat, ∃ k, callModels (attemptLoop b p m as).1 = List.replicate k m := by
  intro as
  induction as with
  | nil => exact ⟨0, rfl⟩
  | cons a rest ih =>
    cases hg : b.generate m p a with
    | ok resp =>
      cases he : extractText resp with
      | some s2 => exact ⟨1, by simp [attemptLoop, hg, he, callModels]⟩
      | none => exact ⟨1, by simp [attemptLoop, hg, he, callModels]⟩
    | resourceExhausted =>
      obtain ⟨k, hk⟩ := ih
      refine ⟨k + 1, ?_⟩
      simp only [attemptLoop, hg]
      simp [callModels] at hk ⊢
      rw [hk, List.replicate_succ]
    | apiError => exact ⟨1, by simp [attemptLoop, hg, callModels]⟩
    | otherError => exact ⟨1, by simp [attemptLoop, hg, callModels]⟩

/-- When a one-model attempt loop abandons the model, every call it made was a
failed attempt. -/
theorem attemptLoop_failed (b : Backend) (p m : String) :
    ∀ as : List Nat, (attemptLoop b p m as).2 = none →
      ∀ m2 a2, Event.call m2 a2 ∈ (attemptLoop b p m as).1 →
        attemptFails b p m2 a2 := by
  intro as
  induction as with
  | nil => intro _ m2 a2 hmem; simp [attemptLoop] at hmem
  | cons a rest ih =>
    intro hnone m2 a2 hmem
    cases hg : b.generate m p a with
    | ok resp =>
      cases he : extractText resp with
      | some s2 =>
        simp only [attemptLoop, hg, he] at hnone
        exact Option.noConfusion hnone
      | none =>
        simp only [attemptLoop, hg, he, List.mem_singleton] at hmem
        cases hmem
        intro resp2 hg2
        rw [hg] at hg2
        cases hg2
        exact he
    | resourceExhausted =>
      simp only [attemptLoop, hg, List.mem_cons] at hmem
      rcases hmem with h1 | h2 | h3
      · cases h1
        intro resp2 hg2
        rw [hg] at hg2
        cases hg2
      · cases h2
      · exact ih (by simpa [attemptLoop, hg] using hnone) m2 a2 h3
    | apiError =>
      simp only [attemptLoop, hg, List.mem_singleton] at hmem
      cases hmem
      intro resp2 hg2
      rw [hg] at hg2
      cases hg2
    | otherError =>
      simp only [attemptLoop, hg, List.mem_singleton] at hmem
      cases hmem
      intro resp2 hg2
      rw [hg] at hg2
      cases hg2

/-- When a one-model attempt loop succeeds, the successful call is the last
event of its trace and every earlier call was a failed attempt. -/
theorem attemptLoop_success (b : Backend) (p m : String) :
    ∀ (as : List Nat) (s : String), (attemptLoop b p m as).2 = some s →
      ∃ tr a, (attemptLoop b p m as).1 = tr ++ [Event.call m a] ∧
        attemptOk b p m a s ∧
        ∀ m2 a2, Event.call m2 a2 ∈ tr → attemptFails b p m2 a2 := by
  intro as
  induction as with
  | nil => intro s h; simp [attemptLoop] at h
  | cons a rest ih =>
    intro s h
    cases hg : b.generate m p a with
    | ok resp =>
      cases he : extractText resp with
      | some s2 =>
        simp only [attemptLoop, hg, he] at h ⊢
        refine ⟨[], a, by simp, ⟨resp, hg, by rw [he, h]⟩, ?_⟩
        intro m2 a2 hmem
        simp at hmem
      | none =>
        simp only [attemptLoop, hg, he] at h
        exact Option.noConfusion h
    | resourceExhausted =>
      simp only [attemptLoop, hg] at h ⊢
      obtain ⟨tr, a2, htr, hok, hfail⟩ := ih s h
      refine ⟨Event.call m a :: Event.sleep (backoff a) :: tr, a2, by simp [htr],
        hok, ?_⟩
      intro m3 a3 hmem
      simp only [List.mem_cons] at hmem
      rcases hmem with h1 | h2 | h3
      · cases h1
        intro resp2 hg2
        rw [hg] at hg2
        cases hg2
      · cases h2
      · exact hfail m3 a3 h3
    | apiError =>
      simp only [attemptLoop, hg] at h
      exact Option.noConfusion h
    | otherError =>
      simp only [attemptLoop, hg] at h
      exact Option.noConfusion h

theorem ordered_replicate (m : String) (ms : List String) :
    ∀ (k : Nat) (cs : List String), OrderedCalls (m :: ms) cs →
      OrderedCalls (m :: ms) (List.replicate k m ++ cs) := by
  intro k
  induction k with
  | zero => intro cs h; simpa using h
  | succ n ih =>
    intro cs h
    rw [List.replicate_succ, List.cons_append]
    exact OrderedCalls.stay m ms _ (ih cs h)

/-- The outer loop calls models in queue order. -/
theorem tryModels_calls (b : Backend) (p : String) :
    ∀ ms : List String, OrderedCalls ms (callModels (tryModels b p ms).1) := by
  intro ms
  induction ms with
  | nil => exact OrderedCalls.nil []
  | cons m rest ih =>
    by_cases hc : b.construct m = true
    · cases hal : attemptLoop b p m (List.range 3) with
      | mk es r =>
        obtain ⟨k, hk⟩ := attemptLoop_calls b p m (List.range 3)
        rw [hal] at hk
        cases r with
        | some s2 =>
          simp only [tryModels, hc, if_true, hal]
          rw [show callModels es = List.replicate k m from hk]
          have := ordered_replicate m rest k [] (OrderedCalls.nil _)
          simpa using this
        | none =>
          simp only [tryModels, hc, if_true, hal]
          rw [callModels_append,
            show callModels es = List.replicate k m from hk]
          exact ordered_replicate m rest k _ (OrderedCalls.skip m rest _ ih)
    · simp only [tryModels, hc, if_false]
      exact OrderedCalls.skip m rest _ ih

/-- When the outer loop succeeds, the successful call is the last event of the
whole trace, its model is in the queue, and every earlier call failed. -/
theorem tryModels_success (b : Backend) (p : String) :
    ∀ (ms : List String) (s : String), (tryModels b p ms).2 = some s →
      ∃ tr m a, (tryModels b p ms).1 = tr ++ [Event.call m a] ∧
        m ∈ ms ∧ attemptOk b p m a s ∧
        ∀ m2 a2, Event.call m2 a2 ∈ tr → attemptFails b p m2 a2 := by
  intro ms
  induction ms with
  | nil => intro s h; simp [tryModels] at h
  | cons m rest ih =>
    intro s h
    by_cases hc : b.construct m = true
    · cases hal : attemptLoop b p m (List.range 3) with
      | mk es r =>
        cases r with
        | some s2 =>
          simp only [tryModels, hc, if_true, hal, Option.some.injEq] at h
          subst h
          simp only [tryModels, hc, if_true, hal]
          obtain ⟨tr, a, htr, hok, hfail⟩ :=
            attemptLoop_success b p m (List.range 3) s2 (by rw [hal])
          rw [hal] at htr
          exact ⟨tr, m, a, htr, List.mem_cons_self m rest, hok, hfail⟩
        | none =>
          simp only [tryModels, hc, if_true, hal] at h ⊢
          obtain ⟨tr, m2, a, htr, hmem, hok, hfail⟩ := ih s h
          refine ⟨es ++ tr, m2, a, by rw [htr, List.append_assoc], ?_, hok, ?_⟩
          · exact List.mem_cons_of_mem m hmem
          · intro m3 a3 hmem3
            rcases List.mem_append.mp hmem3 with h1 | h2
            · exact attemptLoop_failed b p m (List.range 3) (by rw [hal]) m3 a3
                (by rw [hal]; exact h1)
            · exact hfail m3 a3 h2
    · simp only [tryModels, hc, if_false] at h ⊢
      obtain ⟨tr, m2, a, htr, hmem, hok, hfail⟩ := ih s h
      exact ⟨tr, m2, a, htr, List.mem_cons_of_mem m hmem, hok, hfail⟩

/-- Evaluation of the empty feed input. -/
theorem fetch_articles_inputNone : fetch_articles inputNone 0 = [] := by
  have hc : collect inputNone 0 = [] := rfl
  simp [fetch_articles, hc]

/-- Evaluation of the one-entry feed input. -/
theorem fetch_articles_inputOne :
    fetch_articles inputOne 0 =
      [normalize 0 "https://www.utilitydive.com/feeds/news/" entryA] := by
  have hc : collect inputOne 0 =
      [normalize 0 "https://www.utilitydive.com/feeds/news/" entryA] := rfl
  simp [fetch_articles, hc, MAX_ARTICLES]

/-- Evaluation of the oversized-summary feed input. -/
theorem fetch_articles_inputLong :
    fetch_articles inputLong 0 =
      [normalize 0 "https://www.utilitydive.com/feeds/news/" entryLong] := by
  have hc : collect inputLong 0 =
      [normalize 0 "https://www.utilitydive.com/feeds/news/" entryLong] := rfl
  simp [fetch_articles, hc, MAX_ARTICLES]

/-- Every article produced from one feed carries that feed as its source. -/
theorem feedArticles_source (input : String → Option (List RawEntry))
    (now : Nat) (url : String) :
    ∀ a ∈ feedArticles input now url, a.source = url := by
  intro a ha
  unfold feedArticles at ha
  cases h : input url with
  | none => rw [h] at ha; simp at ha
  | some entries =>
    rw [h] at ha
    obtain ⟨e, _, rfl⟩ := List.mem_map.mp ha
    rfl

/-- One feed contributes at most `MAX_PER_FEED` articles. -/
theorem feedArticles_length (input : String → Option (List RawEntry))
    (now : Nat) (url : String) :
    (feedArticles input now url).length ≤ MAX_PER_FEED := by
  unfold feedArticles
  cases h : input url with
  | none => simp
  | some entries =>
    simp only [List.length_map, List.length_take]
    exact inf_le_left

/-- Over any duplicate-free feed list, articles from one source number at most
`MAX_PER_FEED`. -/
theorem flatMap_countP_source_le (input : String → Option (List RawEntry))
    (now : Nat) (u : String) :
    ∀ feeds : List String, feeds.Nodup →
      ((feeds.flatMap (feedArticles input now)).countP
        (fun a => a.source == u)) ≤ MAX_PER_FEED := by
  intro feeds
  induction feeds with
  | nil => intro _; simp [MAX_PER_FEED]
  | cons f fs ih =>
    intro hnd
    obtain ⟨hf, hnd2⟩ := List.nodup_cons.mp hnd
    rw [List.flatMap_cons, List.countP_append]
    by_cases hfu : f = u
    · subst hfu
      have hzero : ((fs.flatMap (feedArticles input now)).countP
          (fun a => a.source == f)) = 0 := by
        apply List.countP_eq_zero.mpr
        intro a ha
        obtain ⟨f2, hf2, ha2⟩ := List.mem_flatMap.mp ha
        have hs := feedArticles_source input now f2 a ha2
        simp only [hs, beq_iff_eq]
        intro heq
        exact hf (heq ▸ hf2)
      have hhead := le_trans
        (List.countP_le_length (fun a => a.source == f))
        (feedArticles_length input now f)
      omega
    · have hzero : ((feedArticles input now f).countP
          (fun a => a.source == u)) = 0 := by
        apply List.countP_eq_zero.mpr
        intro a ha
        have hs := feedArticles_source input now f a ha
        simp only [hs, beq_iff_eq]
        exact hfu
      have := ih hnd2
      omega

/-- The fallback digest always ends in the constant guidance tail. -/
theorem format_headlines_only_tail (shorten : String → String) (nowStr : String)
    (items : List Article) :
    ∃ pre, format_headlines_only shorten nowStr items
      = pre ++ WHAT_MATTERS_TAIL := by
  refine ⟨pyJoin "\n"
      (["Power & Utilities ‚Äî Headlines Digest (LLM unavailable)", nowStr, ""]
        ++ items.map
          (fun it => shorten ("- " ++ it.title ++ " (" ++ it.link ++ ")"))), ?_⟩
  unfold format_headlines_only WHAT_MATTERS_TAIL
  rw [List.append_assoc
      (["Power & Utilities ‚Äî Headlines Digest (LLM unavailable)", nowStr, ""]
        ++ items.map
          (fun it => shorten ("- " ++ it.title ++ " (" ++ it.link ++ ")")))
      [""] WHAT_MATTERS]
  rw [pyJoin_append "\n" _ ([""] ++ WHAT_MATTERS) (by simp) (by simp)]
  rw [String.append_assoc]
  rfl

/-! Claim theorems. -/

/-- C1: the orchestrator attempts the backend models strictly in the order of
`GEMINI_MODELS`, and on the first attempt whose response yields text it
returns that text immediately: the successful call is the last event of the
trace, every earlier call was a failed attempt, and no further attempt of any
model follows. -/
theorem gemini_models_in_order_success_returns_immediately
    (b : Backend) (p : String) :
    OrderedCalls GEMINI_MODELS (callModels (try_gemini_summarize b p).1) ∧
    ∀ s, (try_gemini_summarize b p).2 = some s →
      ∃ tr m a, (try_gemini_summarize b p).1 = tr ++ [Event.call m a] ∧
        m ∈ GEMINI_MODELS ∧ attemptOk b p m a s ∧
        ∀ m2 a2, Event.call m2 a2 ∈ tr → attemptFails b p m2 a2 :=
  ⟨tryModels_calls b p GEMINI_MODELS,
   fun s h => tryModels_success b p GEMINI_MODELS s h⟩

/-- Witness for C1 on a backend that returns text "ok" on the very first
attempt. -/
theorem gemini_models_in_order_witness :
    ∃ tr m a, (try_gemini_summarize okB "p").1 = tr ++ [Event.call m a] ∧
      m ∈ GEMINI_MODELS ∧ attemptOk okB "p" m a "ok" ∧
      ∀ m2 a2, Event.call m2 a2 ∈ tr → attemptFails okB "p" m2 a2 :=
  (gemini_models_in_order_success_returns_immediately okB "p").2 "ok" (by decide)

/-- C2: a model whose three budgeted attempts all hit quota errors produces
exactly the calls at attempts 0, 1, 2 separated by the increasing backoff
sleeps and then the queue advances to the next model, while any other
`GoogleAPIError` on the first attempt abandons the model immediately; the
backoff strictly increases with the attempt number. -/
theorem quota_retry_backoff_api_abandon (b : Backend) (p m : String)
    (ms : List String) (hc : b.construct m = true) :
    ((∀ a, a < 3 → b.generate m p a = GenOutcome.resourceExhausted) →
      tryModels b p (m :: ms) =
        (Event.call m 0 :: Event.sleep (backoff 0) :: Event.call m 1 ::
          Event.sleep (backoff 1) :: Event.call m 2 :: Event.sleep (backoff 2) ::
          (tryModels b p ms).1, (tryModels b p ms).2)) ∧
    (b.generate m p 0 = GenOutcome.apiError →
      tryModels b p (m :: ms) =
        (Event.call m 0 :: (tryModels b p ms).1, (tryModels b p ms).2)) ∧
    (∀ a : Nat, backoff a < backoff (a + 1)) := by
  refine ⟨?_, ?_, ?_⟩
  · intro hq
    have h0 := hq 0 (by omega)
    have h1 := hq 1 (by omega)
    have h2 := hq 2 (by omega)
    have hr : List.range 3 = [0, 1, 2] := rfl
    simp [tryModels, hc, hr, attemptLoop, h0, h1, h2]
  · intro hapi
    have hr : List.range 3 = [0, 1, 2] := rfl
    simp [tryModels, hc, hr, attemptLoop, hapi]
  · intro a
    unfold backoff
    omega

/-- Witness for C2 on the always-quota backend with a two-model queue. -/
theorem quota_retry_backoff_witness :
    (tryModels quotaB "p" (M0 :: [M1]) =
      (Event.call M0 0 :: Event.sleep (backoff 0) :: Event.call M0 1 ::
        Event.sleep (backoff 1) :: Event.call M0 2 :: Event.sleep (backoff 2) ::
        (tryModels quotaB "p" [M1]).1, (tryModels quotaB "p" [M1]).2)) ∧
    backoff 0 < backoff 1 :=
  ⟨(quota_retry_backoff_api_abandon quotaB "p" M0 [M1] (by decide)).1
      (by decide),
   (quota_retry_backoff_api_abandon quotaB "p" M0 [M1] (by decide)).2.2 0⟩

/-- C3 counterexample: on `emptyThenB` the first model parses an empty
response on attempt 0 while its remaining attempt budget would have yielded
text "good"; yet the orchestrator never retries it (no call of the first
model at attempt 1 occurs) and instead advances to the second model. -/
theorem empty_response_no_retry_counterexample :
    emptyThenB.generate M0 "p" 0 = GenOutcome.ok { text := some "" } ∧
    extractText { text := some "" } = none ∧
    emptyThenB.generate M0 "p" 1 = GenOutcome.ok { text := some "good" } ∧
    (try_gemini_summarize emptyThenB "p").1 =
      [Event.call M0 0, Event.call M1 0] ∧
    (try_gemini_summarize emptyThenB "p").2 = some "next" ∧
    Event.call M0 1 ∉ (try_gemini_summarize emptyThenB "p").1 := by
  decide

/-- C3 amended: a response that parses successfully but contains only empty
text raises an error caught by the per-model handler, so the current model is
abandoned immediately (its remaining attempt budget unused) and the next model
in the queue is tried. -/
theorem empty_response_abandons_model (b : Backend) (p m : String)
    (ms : List String) (resp : GeminiResponse) (hc : b.construct m = true)
    (hg : b.generate m p 0 = GenOutcome.ok resp)
    (he : extractText resp = none) :
    tryModels b p (m :: ms) =
      (Event.call m 0 :: (tryModels b p ms).1, (tryModels b p ms).2) ∧
    ∀ (a : Nat) (rest : List Nat) (resp2 : GeminiResponse),
      b.generate m p a = GenOutcome.ok resp2 → extractText resp2 = none →
      attemptLoop b p m (a :: rest) = ([Event.call m a], none) := by
  constructor
  · have hr : List.range 3 = [0, 1, 2] := rfl
    simp [tryModels, hc, hr, attemptLoop, hg, he]
  · intro a rest resp2 hg2 he2
    simp [attemptLoop, hg2, he2]

/-- Witness for the amended C3 on `emptyThenB`. -/
theorem empty_response_abandons_model_witness :
    tryModels emptyThenB "p" (M0 :: [M1]) =
      (Event.call M0 0 :: (tryModels emptyThenB "p" [M1]).1,
        (tryModels emptyThenB "p" [M1]).2) :=
  (empty_response_abandons_model emptyThenB "p" M0 [M1] { text := some "" }
    (by decide) (by decide) (by decide)).1

set_option maxRecDepth 40000 in
/-- C4 counterexample: the feed collector creates an Article whose summary is
601 characters long — longer than the 600-character cap (and than any cap in
the 300–600 range) — so summaries are not truncated at creation time. -/
theorem summary_not_truncated_at_creation_counterexample :
    (fetch_articles inputLong 0).map (fun a => a.summary.length) = [601] ∧
    ¬ (601 ≤ 600) := by
  constructor
  · rw [fetch_articles_inputLong]
    decide
  · decide

set_option maxRecDepth 40000 in
/-- C4 amended: Article summaries are stored untruncated at creation; the
600-character cap is applied per article when `build_prompt` renders each
article block (the rendered summary slice never exceeds 600 characters),
and collected articles can carry summaries longer than 600 characters. -/
theorem summary_truncated_at_prompt_build (i : Nat) (it : Article) :
    articleLine i it =
      (toString i ++ ". " ++ it.title ++ " ‚Äî " ++ it.link ++ "\nSummary: ")
        ++ pySlice it.summary 600 ∧
    (pySlice it.summary 600).length ≤ 600 ∧
    ∃ a, a ∈ fetch_articles inputLong 0 ∧ 600 < a.summary.length := by
  refine ⟨rfl, ?_, ?_⟩
  · show (it.summary.data.take 600).length ≤ 600
    rw [List.length_take]
    exact inf_le_left
  · refine ⟨normalize 0 "https://www.utilitydive.com/feeds/news/" entryLong,
      ?_, ?_⟩
    · rw [fetch_articles_inputLong]
      exact List.mem_singleton_self _
    · decide

/-- C5: the selected article list is sorted descending by timestamp, holds at
most `MAX_ARTICLES` entries, and within any fixed timestamp the selected
articles keep their collection order (they form a sublist of the collected
ones with that timestamp). -/
theorem selector_sorted_capped_stable
    (input : String → Option (List RawEntry)) (now : Nat) :
    List.Pairwise (fun a b : Article => b.ts ≤ a.ts)
      (fetch_articles input now) ∧
    (fetch_articles input now).length ≤ MAX_ARTICLES ∧
    ∀ v : Nat, ((fetch_articles input now).filter (fun a => a.ts == v)).Sublist
      ((collect input now).filter (fun a => a.ts == v)) := by
  have htrans : ∀ a b c : Article, tsDesc a b = true → tsDesc b c = true →
      tsDesc a c = true := by
    intro a b c hab hbc
    simp only [tsDesc, decide_eq_true_eq] at hab hbc ⊢
    omega
  have htotal : ∀ a b : Article, (tsDesc a b || tsDesc b a) = true := by
    intro a b
    simp only [tsDesc, Bool.or_eq_true, decide_eq_true_eq]
    omega
  refine ⟨?_, ?_, ?_⟩
  · have hs := List.sorted_mergeSort htrans htotal (collect input now)
    have hsub : (fetch_articles input now).Sublist
        ((collect input now).mergeSort tsDesc) := List.take_sublist _ _
    exact (List.Pairwise.sublist hsub hs).imp
      (by intro a b h; simpa [tsDesc] using h)
  · rw [fetch_articles, List.length_take]
    exact inf_le_left
  · intro v
    have hpair : List.Pairwise (fun a b : Article => tsDesc a b = true)
        ((collect input now).filter (fun a => a.ts == v)) := by
      apply List.pairwise_of_forall_mem_list
      intro a ha b hb
      have ha2 := (List.mem_filter.mp ha).2
      have hb2 := (List.mem_filter.mp hb).2
      simp only [beq_iff_eq] at ha2 hb2
      simp [tsDesc, ha2, hb2]
    have hsubl := List.sublist_mergeSort htrans htotal hpair
      (List.filter_sublist _)
    have h1 : (((collect input now).filter (fun a => a.ts == v)).filter
        (fun a => a.ts == v))
        = (collect input now).filter (fun a => a.ts == v) :=
      List.filter_eq_self.mpr (fun a ha => (List.mem_filter.mp ha).2)
    have h2 := hsubl.filter (fun a => a.ts == v)
    rw [h1] at h2
    have hlen : (((collect input now).mergeSort tsDesc).filter
          (fun a => a.ts == v)).length
        = ((collect input now).filter (fun a => a.ts == v)).length :=
      ((List.mergeSort_perm (collect input now) tsDesc).filter _).length_eq
    have heq := h2.eq_of_length hlen.symm
    rw [fetch_articles]
    have htk := (List.take_sublist MAX_ARTICLES
      ((collect input now).mergeSort tsDesc)).filter (fun a => a.ts == v)
    rw [← heq] at htk
    exact htk

/-- C6: in the pre-selection list assembled by the feed collector, no single
feed source contributes more than `MAX_PER_FEED` articles. -/
theorem per_feed_contribution_bounded
    (input : String → Option (List RawEntry)) (now : Nat) (u : String) :
    ((collect input now).countP (fun a => a.source == u)) ≤ MAX_PER_FEED :=
  flatMap_countP_source_le input now u RSS_FEEDS (by decide)

/-- C7: when the backend is unavailable (missing credential or failed SDK
initialization) a run with articles goes straight to the headlines-only
digest: exit code 0, an empty backend event trace (no attempt budget is
consumed), and the fallback digest. -/
theorem unavailable_backend_short_circuits (env : Env)
    (input : String → Option (List RawEntry)) (now : Nat) (nowStr : String)
    (shorten : String → String) (b : Backend)
    (h : GEMINI_AVAILABLE env = false) :
    (main_run env input now nowStr shorten b).exitCode = 0 ∧
    (main_run env input now nowStr shorten b).events = [] ∧
    (fetch_articles input now ≠ [] →
      (main_run env input now nowStr shorten b).digest =
        some (format_headlines_only shorten nowStr (fetch_articles input now))) := by
  cases hf : fetch_articles input now with
  | nil => simp [main_run, hf]
  | cons it its => simp [main_run, hf, h]

/-- Witness for C7: no credential configured, one article collected. -/
theorem unavailable_backend_short_circuits_witness :
    (main_run envNoKey inputOne 0 "t" id failB).digest =
      some (format_headlines_only id "t" (fetch_articles inputOne 0)) :=
  (unavailable_backend_short_circuits envNoKey inputOne 0 "t" id failB
    (by decide)).2.2 (by rw [fetch_articles_inputOne]; simp)

set_option maxRecDepth 40000 in
/-- C8: when the backend is available but every model is exhausted (the
orchestrator raises), the run still delivers: the digest is exactly the
fallback formatter's output on the unchanged selected article list, that
output ends in the constant "What matters" guidance bullets, and the
delivered digest is non-empty. -/
theorem total_failure_falls_back_to_headlines (env : Env)
    (input : String → Option (List RawEntry)) (now : Nat) (nowStr : String)
    (shorten : String → String) (b : Backend)
    (hav : GEMINI_AVAILABLE env = true)
    (hne : fetch_articles input now ≠ [])
    (hfail : (try_gemini_summarize b
      (build_prompt (fetch_articles input now))).2 = none) :
    (main_run env input now nowStr shorten b).exitCode = 0 ∧
    (main_run env input now nowStr shorten b).digest =
      some (format_headlines_only shorten nowStr (fetch_articles input now)) ∧
    (∃ pre, format_headlines_only shorten nowStr (fetch_articles input now)
      = pre ++ WHAT_MATTERS_TAIL) ∧
    WHAT_MATTERS_TAIL =
      "\n\nWhat matters:\n‚Ä¢ Watch protection & control updates impacting relay settings/misops.\n‚Ä¢ Track interconnection/transmission constraints affecting project timelines.\n‚Ä¢ Monitor regulatory moves (NERC/ENTSO-E/Ofgem) that change compliance scope." ∧
    ∀ s, (main_run env input now nowStr shorten b).digest = some s →
      s ≠ "" := by
  cases hf : fetch_articles input now with
  | nil => exact absurd hf hne
  | cons it its =>
    rw [hf] at hfail
    have hdig : (main_run env input now nowStr shorten b).digest =
        some (format_headlines_only shorten nowStr (it :: its)) := by
      simp [main_run, hf, hav, hfail]
    refine ⟨?_, ?_, ?_, ?_, ?_⟩
    · simp [main_run, hf]
    · exact hdig
    · exact format_headlines_only_tail shorten nowStr (it :: its)
    · rfl
    · intro s hs h0
      rw [hdig] at hs
      have hfho : format_headlines_only shorten nowStr (it :: its) = s :=
        (Option.some.injEq _ _).mp hs
      obtain ⟨pre, hpre⟩ := format_headlines_only_tail shorten nowStr (it :: its)
      rw [hpre, h0] at hfho
      have hlen := congrArg String.length hfho
      rw [String.length_append] at hlen
      have ht : 0 < WHAT_MATTERS_TAIL.length := by decide
      have h00 : ("" : String).length = 0 := rfl
      rw [h00] at hlen
      omega

set_option maxRecDepth 40000 in
/-- Witness for C8: credential present, every model raises an API error, one
article collected. -/
theorem total_failure_falls_back_witness :
    (main_run envKey inputOne 0 "t" id failB).digest =
      some (format_headlines_only id "t" (fetch_articles inputOne 0)) :=
  (total_failure_falls_back_to_headlines envKey inputOne 0 "t" id failB
    (by decide) (by rw [fetch_articles_inputOne]; simp) (by decide)).2.1

/-- C9: with zero collected articles the run is a successful no-op: exit code
0, no prompt built, no backend event, no digest produced. -/
theorem no_articles_clean_noop (env : Env)
    (input : String → Option (List RawEntry)) (now : Nat) (nowStr : String)
    (shorten : String → String) (b : Backend)
    (h : fetch_articles input now = []) :
    (main_run env input now nowStr shorten b).exitCode = 0 ∧
    (main_run env input now nowStr shorten b).digest = none ∧
    (main_run env input now nowStr shorten b).prompt = none ∧
    (main_run env input now nowStr shorten b).events = [] := by
  unfold main_run
  rw [h]
  exact ⟨rfl, rfl, rfl, rfl⟩

/-- Witness for C9 on the all-empty feed input. -/
theorem no_articles_clean_noop_witness :
    (main_run envNoKey inputNone 0 "t" id okB).exitCode = 0 ∧
    (main_run envNoKey inputNone 0 "t" id okB).digest = none ∧
    (main_run envNoKey inputNone 0 "t" id okB).prompt = none ∧
    (main_run envNoKey inputNone 0 "t" id okB).events = [] :=
  no_articles_clean_noop envNoKey inputNone 0 "t" id okB fetch_articles_inputNone

/-- C10 counterexample: on a backend whose response `text` attribute is the
one-space string (truthy in Python), `try_gemini_summarize` returns the empty
string. -/
theorem whitespace_text_returns_empty_counterexample :
    (try_gemini_summarize wsB "p").2 = some "" := by decide

/-- C10 amended: every string returned by `try_gemini_summarize` has leading
and trailing whitespace stripped (it equals its own strip); in every other
case the function raises rather than returning a sentinel — but the returned
string may be empty when the response text attribute is whitespace-only. -/
theorem summarize_returns_stripped (b : Backend) (p s : String)
    (h : (try_gemini_summarize b p).2 = some s) : pyStrip s = s :=
  tryModels_strip b p GEMINI_MODELS s h

/-- Witness for the amended C10 on the always-"ok" backend. -/
theorem summarize_returns_stripped_witness : pyStrip "ok" = "ok" :=
  summarize_returns_stripped okB "p" "ok" (by decide)

end NewsDigest
